import Mathlib

/-!
Formal model of the bolão (office football-pool) application `app.py`:
the scoring function, the round lifecycle (prediction submission,
result recording, the round-scoring action) and the leaderboard
aggregation, together with theorems checking the specification's
claims against this model.

Conventions of the embedding:
  * MongoDB ObjectIds are modelled as natural numbers; the code only
    ever compares them for equality (always after `str(...)`, i.e. a
    total injective rendering, so equality of the rendered strings is
    equality of ids).
  * Python `int` is `Int`; a field that may be `None` is an `Option`.
  * The round deadline string `data_limite_apostas` is stored in the
    fixed format `YYYY-MM-DDTHH:MM` and always compared after
    `datetime.strptime`, i.e. as a chronological instant; we model the
    instant directly as a `Nat` (minutes since some epoch), and the
    current wall-clock time `datetime.now()` as a `Nat` parameter.
  * An HTML form is a map from a match id to the pair of raw field
    values `placar_casa_<id>`, `placar_visitante_<id>`; a raw field
    value is `blank` (the field is missing, empty or whitespace-only:
    the code treats all three alike), `val n` (a string `int()`
    parses to `n`), or `invalid` (a string on which `int()` raises
    `ValueError`).
-/

/-- A raw form field value as `request.form.get(...)` delivers it. -/
inductive FormVal where
  | blank : FormVal
  | val : Int → FormVal
  | invalid : FormVal
deriving DecidableEq

/-- One match (`jogo`) inside a round, as stored in `rodadas_collection`
(see `cadastrar_rodada`): team ids, the official score pair (both
`None` until recorded) and the `finalizado` flag. -/
structure Jogo where
  id_jogo : Nat
  time_casa_id : Nat
  time_visitante_id : Nat
  placar_casa : Option Int
  placar_visitante : Option Int
  finalizado : Bool
deriving DecidableEq

/-- A round (`rodada`) document: sequence number, betting deadline
(as a comparable instant), match list and the `processada` flag. -/
structure Rodada where
  numero : Nat
  data_limite_apostas : Nat
  jogos : List Jogo
  processada : Bool
deriving DecidableEq

/-- One predicted match inside a `Prediction` document, as built by
`salvar_aposta`. -/
structure PalpiteJogo where
  id_jogo : Nat
  placar_casa : Int
  placar_visitante : Int
deriving DecidableEq

/-- A `Prediction` document of `palpites_collection`: one per
(user, round) pair, holding one entry per match. -/
structure Palpite where
  usuario_id : Nat
  rodada_id : Nat
  palpites : List PalpiteJogo
deriving DecidableEq

/-- A `ScoreRecord` of `ranking_collection`: total points of one user
in one round, written by `calcular_ranking`. -/
structure RankingRecord where
  usuario_id : Nat
  rodada_id : Nat
  pontuacao_total : Int
deriving DecidableEq

/-- The persistent state the core logic reads and writes: the
`rodadas`, `palpites` and `ranking` collections.  Rounds are stored
with their document id. -/
structure DB where
  rodadas : List (Nat × Rodada)
  palpites : List Palpite
  ranking : List RankingRecord
deriving DecidableEq

/-- The sign of a score pair as `calcular_pontuacao_jogo` computes it
twice inline (`resultado_oficial`, `resultado_palpite`): `1` if the
home side scores more, `-1` if the away side scores more, `0` on a
draw. -/
def resultado (casa visitante : Int) : Int :=
  if casa > visitante then 1 else if casa < visitante then -1 else 0

/-- `calcular_pontuacao_jogo` of `app.py`: points of one match given
official scores and predicted scores, any of which may be `None`. -/
def calcular_pontuacao_jogo (placar_oficial_casa placar_oficial_visitante
    palpite_casa palpite_visitante : Option Int) : Int :=
  match placar_oficial_casa, placar_oficial_visitante,
        palpite_casa, palpite_visitante with
  | some oc, some ov, some c, some v =>
      if oc = c ∧ ov = v then 10
      else if resultado oc ov = resultado c v then 5
      else 0
  | _, _, _, _ => 0

/-! ### Spec-side scoring function for claim C1

The following definitions follow the specification's words (absent
input, outcome-sign classification into HomeWin/Draw/AwayWin, tiers
10/5/0 with exact match checked first) and are compared with the
code's `calcular_pontuacao_jogo`. -/

/-- Outcome-sign of a score pair, in the specification's vocabulary. -/
inductive Outcome where
  | homeWin : Outcome
  | draw : Outcome
  | awayWin : Outcome
deriving DecidableEq

/-- Spec-side classification of a score pair by comparing home vs away
magnitude. -/
def outcomeOf (home away : Int) : Outcome :=
  if home > away then .homeWin else if home < away then .awayWin else .draw

/-- Spec-side scoring function, written from the claim: absent input
gives 0; exact match gives 10 (checked first); equal outcome-signs
give 5; everything else gives 0. -/
def scoreSpec (oh oa ph pa : Option Int) : Int :=
  match oh, oa, ph, pa with
  | some o1, some o2, some p1, some p2 =>
      if o1 = p1 ∧ o2 = p2 then 10
      else if outcomeOf o1 o2 = outcomeOf p1 p2 then 5
      else 0
  | _, _, _, _ => 0

lemma resultado_eq_iff_outcome_eq (a b c d : Int) :
    resultado a b = resultado c d ↔ outcomeOf a b = outcomeOf c d := by
  unfold resultado outcomeOf
  split_ifs <;> simp_all

/-- C1: the code's scoring function agrees everywhere with the
specification's description: 0 when any input is absent, 10 on an
exact score match (checked before anything else), 5 when only the
outcome-signs agree, 0 otherwise. -/
theorem calcular_pontuacao_jogo_spec (oh oa ph pa : Option Int) :
    calcular_pontuacao_jogo oh oa ph pa = scoreSpec oh oa ph pa := by
  unfold calcular_pontuacao_jogo scoreSpec
  cases oh <;> cases oa <;> cases ph <;> cases pa <;> try rfl
  rename_i o1 o2 p1 p2
  by_cases hex : o1 = p1 ∧ o2 = p2
  · simp [hex]
  · simp only [if_neg hex, resultado_eq_iff_outcome_eq]

lemma resultado_swap (a b : Int) : resultado b a = - resultado a b := by
  unfold resultado
  split_ifs <;> omega

/-- C9: for all non-null scores, scoring is invariant under swapping
the home/away roles consistently on both the official and the
predicted pair. -/
theorem calcular_pontuacao_jogo_swap (oh oa ph pa : Int) :
    calcular_pontuacao_jogo (some oh) (some oa) (some ph) (some pa) =
      calcular_pontuacao_jogo (some oa) (some oh) (some pa) (some ph) := by
  unfold calcular_pontuacao_jogo
  have h1 : resultado oa oh = - resultado oh oa := resultado_swap oh oa
  have h2 : resultado pa ph = - resultado ph pa := resultado_swap ph pa
  by_cases hex : oh = ph ∧ oa = pa
  · simp [hex]
  · have hex2 : ¬ (oa = pa ∧ oh = ph) := fun h => hex ⟨h.2, h.1⟩
    simp only [if_neg hex, if_neg hex2, h1, h2, neg_inj]

/-! ### Prediction submission: `salvar_aposta` -/

/-- Parsing of one prediction form field in `salvar_aposta`:
`int(s) if s and s.strip() != '' else 0`, with `ValueError` (an
unparsable string) aborting the whole submission. A missing or blank
field silently becomes the score 0. -/
def parse_palpite : FormVal → Option Int
  | .blank => some 0
  | .val n => some n
  | .invalid => none

/-- The loop of `salvar_aposta` building the `palpites` list: one
entry per match of the round, keyed by `id_jogo`; `none` when some
field raises `ValueError`, in which case nothing is saved. -/
def montar_palpites : List Jogo → (Nat → FormVal × FormVal) →
    Option (List PalpiteJogo)
  | [], _ => some []
  | j :: rest, form =>
      match parse_palpite (form j.id_jogo).1,
            parse_palpite (form j.id_jogo).2,
            montar_palpites rest form with
      | some c, some v, some ps =>
          some (⟨j.id_jogo, c, v⟩ :: ps)
      | _, _, _ => none

/-- The `update_one(..., upsert=True)` call of `salvar_aposta` on
`palpites_collection`: replace the `palpites` list of every document
matching (user, round), or append a fresh document when none matches. -/
def upsert_palpite (ps : List Palpite) (uid rid : Nat)
    (entries : List PalpiteJogo) : List Palpite :=
  if ps.any (fun p => p.usuario_id == uid && p.rodada_id == rid) then
    ps.map (fun p =>
      if p.usuario_id == uid && p.rodada_id == rid then
        { p with palpites := entries }
      else p)
  else
    ps ++ [⟨uid, rid, entries⟩]

/-- Outcome of a `salvar_aposta` request, mirroring its flash/redirect
branches. -/
inductive SaveResult where
  | notFound : SaveResult
  | deadlinePassed : SaveResult
  | parseError : SaveResult
  | saved : SaveResult
deriving DecidableEq

/-- `salvar_aposta` of `app.py`: look the round up, reject when
`datetime.now() >= data_limite_apostas`, build the entries from the
form (aborting on `ValueError`) and upsert the user's Prediction. -/
def salvar_aposta (db : DB) (uid rid agora : Nat)
    (form : Nat → FormVal × FormVal) : DB × SaveResult :=
  match db.rodadas.find? (fun q => q.1 == rid) with
  | none => (db, .notFound)
  | some (_, rodada) =>
      if rodada.data_limite_apostas ≤ agora then
        (db, .deadlinePassed)
      else
        match montar_palpites rodada.jogos form with
        | none => (db, .parseError)
        | some entries =>
            ({ db with
                palpites := upsert_palpite db.palpites uid rid entries },
             .saved)

/-- C5: a submission attempt on a round whose deadline is at or before
the current time is rejected and the whole prediction store — in
particular the user's previously stored Prediction, if any — is left
unchanged. -/
theorem salvar_aposta_deadline_rejects (db : DB) (uid rid agora : Nat)
    (form : Nat → FormVal × FormVal) (k : Nat) (rodada : Rodada)
    (hfind : db.rodadas.find? (fun q => q.1 == rid) = some (k, rodada))
    (hlate : rodada.data_limite_apostas ≤ agora) :
    (salvar_aposta db uid rid agora form).2 = .deadlinePassed ∧
      (salvar_aposta db uid rid agora form).1 = db := by
  unfold salvar_aposta
  rw [hfind]
  simp [hlate]

/-- Concrete round used by the witnesses: one match (id 7) between
teams 1 and 2, no official result yet, deadline at instant 100. -/
def rodadaEx : Rodada :=
  { numero := 1
    data_limite_apostas := 100
    jogos := [⟨7, 1, 2, none, none, false⟩]
    processada := false }

/-- Concrete database used by the witnesses: the single round above
stored under id 3, one prior Prediction of user 5, empty ranking. -/
def dbEx : DB :=
  { rodadas := [(3, rodadaEx)]
    palpites := [⟨5, 3, [⟨7, 2, 1⟩]⟩]
    ranking := [] }

/-- Witness for C5: at time 100 (exactly the deadline) user 5's
attempt on round 3 is rejected and the database, including the
Prediction from before the deadline, is untouched. -/
theorem salvar_aposta_deadline_rejects_witness :
    (salvar_aposta dbEx 5 3 100 (fun _ => (.val 0, .val 0))).2 =
        .deadlinePassed ∧
      (salvar_aposta dbEx 5 3 100 (fun _ => (.val 0, .val 0))).1 = dbEx :=
  salvar_aposta_deadline_rejects dbEx 5 3 100 (fun _ => (.val 0, .val 0))
    3 rodadaEx (by decide) (by decide)

/-- C6 (failing input): before the deadline, user 5 submits the string
`-1` as the home score of match 7; `int('-1')` succeeds, no
non-negativity check exists, and the submission is accepted, storing a
Prediction entry with a negative score — contradicting both the spec
and the code's own `ValueError` message, which demands integers
`0 ou mais`. -/
theorem salvar_aposta_stores_negative :
    (salvar_aposta dbEx 5 3 50 (fun _ => (.val (-1), .val 0))).2 =
        .saved ∧
      ∃ p ∈ (salvar_aposta dbEx 5 3 50
          (fun _ => (.val (-1), .val 0))).1.palpites,
        p.usuario_id = 5 ∧ p.rodada_id = 3 ∧
          ∃ e ∈ p.palpites, e.placar_casa < 0 := by
  decide

/-! ### Round creation and result recording:
`cadastrar_rodada` and `placar_admin_salvar` -/

/-- A match as `cadastrar_rodada` creates it: no official scores,
not finalized. -/
def novo_jogo (idj casa visitante : Nat) : Jogo :=
  { id_jogo := idj
    time_casa_id := casa
    time_visitante_id := visitante
    placar_casa := none
    placar_visitante := none
    finalizado := false }

/-- Parsing of one result form field in `placar_admin_salvar`:
`int(s) if s is not None and s.strip() != '' else None`, with
`ValueError` signalled as `.error`. A missing or blank field is a
null score. -/
def parse_placar : FormVal → Except Unit (Option Int)
  | .blank => .ok none
  | .val n => .ok (some n)
  | .invalid => .error ()

/-- The per-match body of the loop of `placar_admin_salvar`: both
fields are parsed before the match is touched; on success the scores
are replaced and `finalizado` is set iff both are non-null; on
`ValueError` the match is appended unchanged. -/
def atualizar_jogo (form : Nat → FormVal × FormVal) (jogo : Jogo) : Jogo :=
  match parse_placar (form jogo.id_jogo).1,
        parse_placar (form jogo.id_jogo).2 with
  | .ok c, .ok v =>
      { jogo with
          placar_casa := c
          placar_visitante := v
          finalizado := c.isSome && v.isSome }
  | _, _ => jogo

/-- The `jogos_atualizados` list `placar_admin_salvar` writes back:
every match of the round processed independently. -/
def placar_admin_salvar_jogos (form : Nat → FormVal × FormVal)
    (jogos : List Jogo) : List Jogo :=
  jogos.map (atualizar_jogo form)

/-- The Match invariant of the spec: `finalizado` implies both
official scores non-null; not `finalizado` implies at least one is
null. -/
def inv_jogo (j : Jogo) : Prop :=
  (j.finalizado = true →
      j.placar_casa ≠ none ∧ j.placar_visitante ≠ none) ∧
    (j.finalizado = false →
      j.placar_casa = none ∨ j.placar_visitante = none)

instance (j : Jogo) : Decidable (inv_jogo j) := by
  unfold inv_jogo
  infer_instance

lemma inv_jogo_atualizar (form : Nat → FormVal × FormVal) (j : Jogo)
    (hj : inv_jogo j) : inv_jogo (atualizar_jogo form j) := by
  unfold atualizar_jogo
  cases h1 : parse_placar (form j.id_jogo).1 with
  | error e => simpa using hj
  | ok c =>
    cases h2 : parse_placar (form j.id_jogo).2 with
    | error e => simpa using hj
    | ok v => cases c <;> cases v <;> simp [inv_jogo]

/-- C8: (a) every match of a freshly created round satisfies the
finalized/score invariant; (b) the result-recording action preserves
the invariant for every match: after it runs, every stored match is
finalized iff both official scores are non-null; (c) a match whose
submitted fields are malformed is kept exactly as it was; (d) each
match of the round is processed independently (positionwise), so one
bad field never touches the other matches. -/
theorem placar_invariantes (form : Nat → FormVal × FormVal) :
    (∀ idj casa visitante, inv_jogo (novo_jogo idj casa visitante)) ∧
      (∀ jogos : List Jogo, (∀ j ∈ jogos, inv_jogo j) →
        ∀ j2 ∈ placar_admin_salvar_jogos form jogos, inv_jogo j2) ∧
      (∀ j : Jogo,
        (parse_placar (form j.id_jogo).1 = .error () ∨
            parse_placar (form j.id_jogo).2 = .error ()) →
          atualizar_jogo form j = j) ∧
      (∀ jogos : List Jogo,
        List.Forall₂ (fun j j2 => j2 = atualizar_jogo form j) jogos
          (placar_admin_salvar_jogos form jogos)) := by
  refine ⟨?_, ?_, ?_, ?_⟩
  · intro idj casa visitante
    simp [inv_jogo, novo_jogo]
  · intro jogos hinv j2 hj2
    obtain ⟨j, hj, rfl⟩ := List.mem_map.mp hj2
    exact inv_jogo_atualizar form j (hinv j hj)
  · intro j herr
    unfold atualizar_jogo
    rcases herr with h | h
    · rw [h]
    · rw [h]
      cases parse_placar (form j.id_jogo).1 <;> rfl
  · intro jogos
    induction jogos with
    | nil => exact List.Forall₂.nil
    | cons j rest ih => exact List.Forall₂.cons rfl ih

/-- Concrete form for the witnesses of result recording: a valid
2×1 score for match 7, a malformed home field for match 8, blanks
elsewhere. -/
def formEx : Nat → FormVal × FormVal := fun i =>
  if i = 7 then (.val 2, .val 1)
  else if i = 8 then (.invalid, .val 3)
  else (.blank, .blank)

/-- Witness for C8: on a two-match round, the freshly created match
satisfies the invariant, every match after result recording satisfies
it, and the match with the malformed field (id 8, previously
finalized 1×1) is kept unchanged. -/
theorem placar_invariantes_witness :
    inv_jogo (novo_jogo 7 1 2) ∧
      (∀ j2 ∈ placar_admin_salvar_jogos formEx
          [⟨7, 1, 2, none, none, false⟩, ⟨8, 3, 4, some 1, some 1, true⟩],
        inv_jogo j2) ∧
      atualizar_jogo formEx ⟨8, 3, 4, some 1, some 1, true⟩ =
        ⟨8, 3, 4, some 1, some 1, true⟩ :=
  ⟨(placar_invariantes formEx).1 7 1 2,
   (placar_invariantes formEx).2.1 _ (by decide),
   (placar_invariantes formEx).2.2.1 _ (Or.inl rfl)⟩

/-! ### C10: a missing or blank prediction field becomes a stored 0 -/

lemma montar_palpites_forall₂ (form : Nat → FormVal × FormVal) :
    ∀ (jogos : List Jogo) (entries : List PalpiteJogo),
      montar_palpites jogos form = some entries →
      List.Forall₂ (fun (j : Jogo) (e : PalpiteJogo) =>
        e.id_jogo = j.id_jogo ∧
          ((form j.id_jogo).1 = .blank → e.placar_casa = 0) ∧
          ((form j.id_jogo).2 = .blank → e.placar_visitante = 0))
        jogos entries := by
  intro jogos
  induction jogos with
  | nil =>
    intro entries h
    unfold montar_palpites at h
    cases h
    exact List.Forall₂.nil
  | cons j rest ih =>
    intro entries h
    unfold montar_palpites at h
    cases h1 : parse_palpite (form j.id_jogo).1 with
    | none => rw [h1] at h; simp at h
    | some c =>
      cases h2 : parse_palpite (form j.id_jogo).2 with
      | none => rw [h1, h2] at h; simp at h
      | some v =>
        cases h3 : montar_palpites rest form with
        | none => rw [h1, h2, h3] at h; simp at h
        | some ps =>
          rw [h1, h2, h3] at h
          cases h
          refine List.Forall₂.cons ⟨rfl, ?_, ?_⟩ (ih ps h3)
          · intro hb
            rw [hb] at h1
            cases h1
            rfl
          · intro hb
            rw [hb] at h2
            cases h2
            rfl

lemma upsert_palpite_mem (ps : List Palpite) (uid rid : Nat)
    (entries : List PalpiteJogo) :
    ∃ p ∈ upsert_palpite ps uid rid entries,
      p.usuario_id = uid ∧ p.rodada_id = rid ∧ p.palpites = entries := by
  unfold upsert_palpite
  cases hany : ps.any (fun p => p.usuario_id == uid && p.rodada_id == rid) with
  | false =>
    simp only [hany, Bool.false_eq_true, if_false]
    exact ⟨⟨uid, rid, entries⟩,
      List.mem_append_right _ (List.mem_singleton.mpr rfl), rfl, rfl, rfl⟩
  | true =>
    simp only [hany, if_true]
    obtain ⟨x, hx, hkey⟩ := List.any_eq_true.mp hany
    have hkey2 : x.usuario_id = uid ∧ x.rodada_id = rid := by
      simpa using hkey
    refine ⟨{ x with palpites := entries }, ?_, hkey2.1, hkey2.2, rfl⟩
    have himg := List.mem_map_of_mem
      (fun p => if p.usuario_id == uid && p.rodada_id == rid then
          { p with palpites := entries } else p) hx
    simpa [hkey] using himg

/-- C10: on a submission before the deadline whose fields all parse,
the submission is accepted and the stored Prediction of (user, round)
has one entry per match of the round (in match order, keyed by the
match id), in which every match whose home or away form field is
missing or blank gets that score stored as the concrete value 0. -/
theorem salvar_aposta_blank_score_zero (db : DB) (uid rid agora : Nat)
    (form : Nat → FormVal × FormVal) (k : Nat) (rodada : Rodada)
    (entries : List PalpiteJogo)
    (hfind : db.rodadas.find? (fun q => q.1 == rid) = some (k, rodada))
    (hearly : agora < rodada.data_limite_apostas)
    (hm : montar_palpites rodada.jogos form = some entries) :
    (salvar_aposta db uid rid agora form).2 = .saved ∧
      ∃ p ∈ (salvar_aposta db uid rid agora form).1.palpites,
        p.usuario_id = uid ∧ p.rodada_id = rid ∧
          List.Forall₂ (fun (j : Jogo) (e : PalpiteJogo) =>
            e.id_jogo = j.id_jogo ∧
              ((form j.id_jogo).1 = .blank → e.placar_casa = 0) ∧
              ((form j.id_jogo).2 = .blank → e.placar_visitante = 0))
            rodada.jogos p.palpites := by
  have hnotle : ¬ rodada.data_limite_apostas ≤ agora := Nat.not_le.mpr hearly
  unfold salvar_aposta
  rw [hfind]
  simp only [hnotle, if_false, hm]
  refine ⟨by trivial, ?_⟩
  obtain ⟨p, hp, hu, hr, hpe⟩ := upsert_palpite_mem db.palpites uid rid entries
  exact ⟨p, hp, hu, hr, hpe ▸ montar_palpites_forall₂ form rodada.jogos entries hm⟩

/-- Witness for C10: user 5 leaves the home field of match 7 blank
and types 2 as the away score; the saved Prediction records 0×2 for
match 7. -/
theorem salvar_aposta_blank_score_zero_witness :
    (salvar_aposta dbEx 5 3 50 (fun _ => (.blank, .val 2))).2 = .saved ∧
      ∃ p ∈ (salvar_aposta dbEx 5 3 50
          (fun _ => (.blank, .val 2))).1.palpites,
        p.usuario_id = 5 ∧ p.rodada_id = 3 ∧
          List.Forall₂ (fun (j : Jogo) (e : PalpiteJogo) =>
            e.id_jogo = j.id_jogo ∧
              (((fun (_ : Nat) => (FormVal.blank, FormVal.val 2)) j.id_jogo).1
                  = .blank → e.placar_casa = 0) ∧
              (((fun (_ : Nat) => (FormVal.blank, FormVal.val 2)) j.id_jogo).2
                  = .blank → e.placar_visitante = 0))
            rodadaEx.jogos p.palpites :=
  salvar_aposta_blank_score_zero dbEx 5 3 50 (fun _ => (.blank, .val 2))
    3 rodadaEx [⟨7, 0, 2⟩] (by decide) (by decide) (by decide)

/-! ### The round-scoring action: `calcular_ranking` -/

/-- Contribution of one prediction entry: the entry is matched to the
round's match by match identity (`str(j['id_jogo']) == str(jogo_id)`);
an entry matching no match of the round contributes 0 and is silently
skipped. -/
def pontos_entrada (jogos : List Jogo) (pj : PalpiteJogo) : Int :=
  match jogos.find? (fun j => j.id_jogo == pj.id_jogo) with
  | some j =>
      calcular_pontuacao_jogo j.placar_casa j.placar_visitante
        (some pj.placar_casa) (some pj.placar_visitante)
  | none => 0

/-- The inner loop of `calcular_ranking` accumulating
`pontuacao_total` over one Prediction's entries. -/
def pontuar_palpite (jogos : List Jogo) (entries : List PalpiteJogo) : Int :=
  entries.foldl (fun acc pj =>
    match jogos.find? (fun j => j.id_jogo == pj.id_jogo) with
    | some j =>
        acc + calcular_pontuacao_jogo j.placar_casa j.placar_visitante
          (some pj.placar_casa) (some pj.placar_visitante)
    | none => acc) 0

/-- The (user, round) filter of the `update_one` call on
`ranking_collection`. -/
def chave_ranking (uid rid : Nat) : RankingRecord → Bool :=
  fun r => r.usuario_id == uid && r.rodada_id == rid

/-- `update_one({usuario_id, rodada_id}, {$set: pontuacao_total},
upsert=True)` on `ranking_collection`. -/
def upsert_ranking (rs : List RankingRecord) (uid rid : Nat)
    (pts : Int) : List RankingRecord :=
  if rs.any (chave_ranking uid rid) then
    rs.map (fun r =>
      if chave_ranking uid rid r then { r with pontuacao_total := pts }
      else r)
  else
    rs ++ [⟨uid, rid, pts⟩]

/-- Outcome of a `calcular_ranking` request, mirroring its
flash/redirect branches in order. -/
inductive CalcResult where
  | notFound : CalcResult
  | notFinalized : CalcResult
  | alreadyProcessed : CalcResult
  | noPalpites : CalcResult
  | success : CalcResult
deriving DecidableEq

/-- `calcular_ranking` of `app.py`: look the round up; reject when
some match is not finalized or the round is already `processada`;
report a no-op when the round has no Predictions; otherwise upsert
one ScoreRecord per Prediction of the round and finally set
`processada`. -/
def calcular_ranking (db : DB) (rid : Nat) : DB × CalcResult :=
  match db.rodadas.find? (fun q => q.1 == rid) with
  | none => (db, .notFound)
  | some (_, rodada) =>
      if rodada.jogos.any (fun j => !j.finalizado) then
        (db, .notFinalized)
      else if rodada.processada then
        (db, .alreadyProcessed)
      else
        let ps := db.palpites.filter (fun p => p.rodada_id == rid)
        if ps.isEmpty then
          (db, .noPalpites)
        else
          ({ db with
              ranking := ps.foldl (fun rs p =>
                upsert_ranking rs p.usuario_id rid
                  (pontuar_palpite rodada.jogos p.palpites)) db.ranking
              rodadas := db.rodadas.map (fun q =>
                if q.1 == rid then (q.1, { q.2 with processada := true })
                else q) },
           .success)

/-- C3: whenever a precondition of the scoring action fails — the
round does not exist, some match of the round is not finalized, or
the round is already processed — the action reports the specific
failure and the whole state (ScoreRecords, the round's matches and
its processed flag) is unchanged; in particular a second invocation
on an already-processed round is rejected, never silently re-summed. -/
theorem calcular_ranking_precondition_fail (db : DB) (rid : Nat)
    (hfail : match db.rodadas.find? (fun q => q.1 == rid) with
      | none => True
      | some (_, r) =>
          (∃ j ∈ r.jogos, j.finalizado = false) ∨ r.processada = true) :
    (calcular_ranking db rid).1 = db ∧
      ((calcular_ranking db rid).2 = .notFound ∨
        (calcular_ranking db rid).2 = .notFinalized ∨
        (calcular_ranking db rid).2 = .alreadyProcessed) := by
  unfold calcular_ranking
  cases hf : db.rodadas.find? (fun q => q.1 == rid) with
  | none => exact ⟨rfl, Or.inl rfl⟩
  | some q =>
    obtain ⟨k, r⟩ := q
    rw [hf] at hfail
    simp only
    cases hany : r.jogos.any (fun j => !j.finalizado) with
    | true => simp [hany]
    | false =>
      rcases hfail with ⟨j, hj, hjf⟩ | hproc
      · exfalso
        have : r.jogos.any (fun j => !j.finalizado) = true :=
          List.any_eq_true.mpr ⟨j, hj, by simp [hjf]⟩
        rw [hany] at this
        cases this
      · simp [hany, hproc]

/-- Concrete already-processed round and its database, for the C3
witness. -/
def rodadaProcEx : Rodada :=
  { numero := 2
    data_limite_apostas := 100
    jogos := [⟨9, 1, 2, some 1, some 0, true⟩]
    processada := true }

/-- Database for the C3 witness: round `rodadaProcEx` stored under
id 4, one Prediction and one already-written ScoreRecord for it. -/
def dbProcEx : DB :=
  { rodadas := [(4, rodadaProcEx)]
    palpites := [⟨5, 4, [⟨9, 1, 0⟩]⟩]
    ranking := [⟨5, 4, 10⟩] }

/-- Witness for C3: re-invoking the scoring action on the processed
round 4 leaves the database (including the ScoreRecord worth 10)
untouched and reports a precondition failure. -/
theorem calcular_ranking_precondition_fail_witness :
    (calcular_ranking dbProcEx 4).1 = dbProcEx ∧
      ((calcular_ranking dbProcEx 4).2 = .notFound ∨
        (calcular_ranking dbProcEx 4).2 = .notFinalized ∨
        (calcular_ranking dbProcEx 4).2 = .alreadyProcessed) :=
  calcular_ranking_precondition_fail dbProcEx 4 (Or.inr rfl)

/-- C4: when a round satisfies every precondition but has zero
Predictions, the scoring action is an informational no-op: the state
is unchanged — no ScoreRecord is written and `processada` stays
false. -/
theorem calcular_ranking_sem_palpites (db : DB) (rid k : Nat)
    (rodada : Rodada)
    (hfind : db.rodadas.find? (fun q => q.1 == rid) = some (k, rodada))
    (hfin : ∀ j ∈ rodada.jogos, j.finalizado = true)
    (hproc : rodada.processada = false)
    (hnone : ∀ p ∈ db.palpites, p.rodada_id ≠ rid) :
    (calcular_ranking db rid).1 = db ∧
      (calcular_ranking db rid).2 = .noPalpites := by
  have hany : rodada.jogos.any (fun j => !j.finalizado) = false := by
    rw [List.any_eq_false]
    intro j hj
    simp [hfin j hj]
  have hflt : db.palpites.filter (fun p => p.rodada_id == rid) = [] := by
    rw [List.filter_eq_nil_iff]
    intro p hp
    simp [hnone p hp]
  unfold calcular_ranking
  rw [hfind]
  simp [hany, hproc, hflt]

/-- Concrete fully-finalized unprocessed round for the C4 witness,
stored under id 8 in a database whose only Prediction belongs to a
different round. -/
def dbSemPalpitesEx : DB :=
  { rodadas := [(8, { numero := 3
                      data_limite_apostas := 100
                      jogos := [⟨11, 1, 2, some 0, some 0, true⟩]
                      processada := false })]
    palpites := [⟨5, 99, [⟨11, 0, 0⟩]⟩]
    ranking := [] }

/-- Witness for C4: scoring round 8, which has no Predictions, leaves
the database unchanged and reports the no-op. -/
theorem calcular_ranking_sem_palpites_witness :
    (calcular_ranking dbSemPalpitesEx 8).1 = dbSemPalpitesEx ∧
      (calcular_ranking dbSemPalpitesEx 8).2 = .noPalpites :=
  calcular_ranking_sem_palpites dbSemPalpitesEx 8 8
    { numero := 3
      data_limite_apostas := 100
      jogos := [⟨11, 1, 2, some 0, some 0, true⟩]
      processada := false }
    (by decide) (by decide) (by decide) (by decide)

/-! ### C2: effect of a successful scoring pass -/

lemma chave_ranking_set (uid rid : Nat) (r : RankingRecord) (pts : Int)
    (h : chave_ranking uid rid r = true) :
    ({ r with pontuacao_total := pts } : RankingRecord) = ⟨uid, rid, pts⟩ := by
  have h2 : r.usuario_id = uid ∧ r.rodada_id = rid := by
    simpa [chave_ranking] using h
  cases r
  simp_all

lemma find?_map_set (uid rid : Nat) (pts : Int) :
    ∀ rs : List RankingRecord, rs.any (chave_ranking uid rid) = true →
      (rs.map (fun r => if chave_ranking uid rid r then
          ({ r with pontuacao_total := pts } : RankingRecord) else r)).find?
        (chave_ranking uid rid) = some ⟨uid, rid, pts⟩ := by
  intro rs
  induction rs with
  | nil => intro h; cases h
  | cons r rest ih =>
    intro h
    cases hr : chave_ranking uid rid r with
    | true =>
      rw [List.map_cons, if_pos hr, chave_ranking_set uid rid r pts hr]
      exact List.find?_cons_of_pos _ (by simp [chave_ranking])
    | false =>
      have hrest : rest.any (chave_ranking uid rid) = true := by
        rcases List.any_eq_true.mp h with ⟨x, hx, hcx⟩
        rcases List.mem_cons.mp hx with rfl | hx2
        · rw [hr] at hcx; cases hcx
        · exact List.any_eq_true.mpr ⟨x, hx2, hcx⟩
      rw [List.map_cons, if_neg (by simp [hr]),
        List.find?_cons_of_neg _ (by simp [hr])]
      exact ih hrest

lemma find?_append_new (uid rid : Nat) (pts : Int) :
    ∀ rs : List RankingRecord, rs.any (chave_ranking uid rid) = false →
      (rs ++ [(⟨uid, rid, pts⟩ : RankingRecord)]).find?
        (chave_ranking uid rid) = some ⟨uid, rid, pts⟩ := by
  intro rs
  induction rs with
  | nil =>
    intro h
    simp only [List.nil_append]
    exact List.find?_cons_of_pos _ (by simp [chave_ranking])
  | cons r rest ih =>
    intro h
    rw [List.any_eq_false] at h
    have hr : chave_ranking uid rid r = false := by
      simpa using h r (List.mem_cons_self r rest)
    have hrest : rest.any (chave_ranking uid rid) = false := by
      rw [List.any_eq_false]
      intro x hx
      exact h x (List.mem_cons_of_mem r hx)
    rw [List.cons_append, List.find?_cons_of_neg _ (by simp [hr])]
    exact ih hrest

lemma find?_upsert_self (rs : List RankingRecord) (uid rid : Nat)
    (pts : Int) :
    (upsert_ranking rs uid rid pts).find? (chave_ranking uid rid) =
      some ⟨uid, rid, pts⟩ := by
  unfold upsert_ranking
  cases hany : rs.any (chave_ranking uid rid) with
  | true =>
    rw [if_pos rfl]
    exact find?_map_set uid rid pts rs hany
  | false =>
    rw [if_neg (by simp)]
    exact find?_append_new uid rid pts rs hany

lemma chave_ranking_keep (rid u2 : Nat) (r : RankingRecord)
    (pts : Int) :
    chave_ranking u2 rid
        ({ r with pontuacao_total := pts } : RankingRecord) =
      chave_ranking u2 rid r := by
  simp [chave_ranking]

lemma find?_map_set_other (uid rid : Nat) (pts : Int) (u2 : Nat)
    (hne : u2 ≠ uid) :
    ∀ rs : List RankingRecord,
      (rs.map (fun r => if chave_ranking uid rid r then
          ({ r with pontuacao_total := pts } : RankingRecord) else r)).find?
        (chave_ranking u2 rid) = rs.find? (chave_ranking u2 rid) := by
  intro rs
  induction rs with
  | nil => rfl
  | cons r rest ih =>
    cases hr : chave_ranking u2 rid r with
    | true =>
      have hother : chave_ranking uid rid r = false := by
        have h2 : r.usuario_id = u2 ∧ r.rodada_id = rid := by
          simpa [chave_ranking] using hr
        simp [chave_ranking, h2.1]
        intro h
        exact absurd h hne
      rw [List.map_cons, if_neg (by simp [hother]),
        List.find?_cons_of_pos _ (by simp [hr]),
        List.find?_cons_of_pos _ (by simp [hr])]
    | false =>
      cases hcu : chave_ranking uid rid r with
      | true =>
        rw [List.map_cons, if_pos hcu,
          List.find?_cons_of_neg _
            (by simp only [chave_ranking_keep rid u2 r pts, hr]; simp),
          List.find?_cons_of_neg _ (by simp [hr])]
        exact ih
      | false =>
        rw [List.map_cons, if_neg (by simp [hcu]),
          List.find?_cons_of_neg _ (by simp [hr]),
          List.find?_cons_of_neg _ (by simp [hr])]
        exact ih

lemma find?_append_other (uid rid : Nat) (pts : Int) (u2 : Nat)
    (hne : u2 ≠ uid) :
    ∀ rs : List RankingRecord,
      (rs ++ [(⟨uid, rid, pts⟩ : RankingRecord)]).find?
        (chave_ranking u2 rid) = rs.find? (chave_ranking u2 rid) := by
  intro rs
  induction rs with
  | nil =>
    rw [List.nil_append,
      List.find?_cons_of_neg _ (by
        simp [chave_ranking]
        intro h
        exact absurd h.symm hne)]
  | cons r rest ih =>
    cases hr : chave_ranking u2 rid r with
    | true =>
      rw [List.cons_append, List.find?_cons_of_pos _ (by simp [hr]),
        List.find?_cons_of_pos _ (by simp [hr])]
    | false =>
      rw [List.cons_append, List.find?_cons_of_neg _ (by simp [hr]),
        List.find?_cons_of_neg _ (by simp [hr])]
      exact ih

lemma find?_upsert_other (rs : List RankingRecord) (uid rid : Nat)
    (pts : Int) (u2 : Nat) (hne : u2 ≠ uid) :
    (upsert_ranking rs uid rid pts).find? (chave_ranking u2 rid) =
      rs.find? (chave_ranking u2 rid) := by
  unfold upsert_ranking
  cases hany : rs.any (chave_ranking uid rid) with
  | true =>
    rw [if_pos rfl]
    exact find?_map_set_other uid rid pts u2 hne rs
  | false =>
    rw [if_neg (by simp)]
    exact find?_append_other uid rid pts u2 hne rs

lemma find?_fold_upsert_other (rid : Nat) (f : Palpite → Int) (u2 : Nat) :
    ∀ (ps : List Palpite), (∀ p ∈ ps, u2 ≠ p.usuario_id) →
      ∀ rs : List RankingRecord,
        (ps.foldl (fun rs q =>
            upsert_ranking rs q.usuario_id rid (f q)) rs).find?
          (chave_ranking u2 rid) = rs.find? (chave_ranking u2 rid) := by
  intro ps
  induction ps with
  | nil => intro _ rs; rfl
  | cons q rest ih =>
    intro h rs
    rw [List.foldl_cons,
      ih (fun p hp => h p (List.mem_cons_of_mem q hp)) _,
      find?_upsert_other rs q.usuario_id rid (f q) u2
        (h q (List.mem_cons_self q rest))]

lemma find?_fold_upsert (rid : Nat) (f : Palpite → Int) :
    ∀ (ps : List Palpite),
      ps.Pairwise (fun a b => a.usuario_id ≠ b.usuario_id) →
      ∀ p ∈ ps, ∀ rs : List RankingRecord,
        (ps.foldl (fun rs q =>
            upsert_ranking rs q.usuario_id rid (f q)) rs).find?
          (chave_ranking p.usuario_id rid) =
          some ⟨p.usuario_id, rid, f p⟩ := by
  intro ps
  induction ps with
  | nil => intro _ p hp; cases hp
  | cons q rest ih =>
    intro hpw p hp rs
    have hpw2 := List.pairwise_cons.mp hpw
    rw [List.foldl_cons]
    rcases List.mem_cons.mp hp with rfl | hp2
    · rw [find?_fold_upsert_other rid f p.usuario_id rest
        (fun x hx => hpw2.1 x hx) _]
      exact find?_upsert_self rs p.usuario_id rid (f p)
    · exact ih hpw2.2 p hp2 _

lemma pontuar_palpite_eq_sum (jogos : List Jogo)
    (entries : List PalpiteJogo) :
    pontuar_palpite jogos entries =
      (entries.map (pontos_entrada jogos)).sum := by
  have hgen : ∀ (l : List PalpiteJogo) (a : Int),
      l.foldl (fun acc pj =>
        match jogos.find? (fun j => j.id_jogo == pj.id_jogo) with
        | some j =>
            acc + calcular_pontuacao_jogo j.placar_casa j.placar_visitante
              (some pj.placar_casa) (some pj.placar_visitante)
        | none => acc) a = a + (l.map (pontos_entrada jogos)).sum := by
    intro l
    induction l with
    | nil => intro a; simp
    | cons pj rest ih =>
      intro a
      rw [List.foldl_cons, List.map_cons, List.sum_cons, ih]
      unfold pontos_entrada
      cases hf : jogos.find? (fun j => j.id_jogo == pj.id_jogo) with
      | none => simp [hf]; try ring
      | some j => simp [hf]; try ring
  unfold pontuar_palpite
  rw [hgen entries 0]
  ring

lemma find?_map_processada (rid : Nat) :
    ∀ (l : List (Nat × Rodada)) (k : Nat) (r : Rodada),
      l.find? (fun q => q.1 == rid) = some (k, r) →
      (l.map (fun q => if q.1 == rid then
          (q.1, { q.2 with processada := true }) else q)).find?
        (fun q => q.1 == rid) = some (k, { r with processada := true }) := by
  intro l
  induction l with
  | nil => intro k r h; cases h
  | cons a rest ih =>
    intro k r h
    cases ha : (a.1 == rid : Bool) with
    | true =>
      rw [List.find?_cons_of_pos _ (by simp_all)] at h
      cases h
      rw [List.map_cons, if_pos ha,
        List.find?_cons_of_pos _ (by simp_all)]
    | false =>
      rw [List.find?_cons_of_neg _ (by simp_all)] at h
      rw [List.map_cons, if_neg (by simp_all),
        List.find?_cons_of_neg _ (by simp_all)]
      exact ih k r h

/-- C2: when the scoring action runs on a round meeting every
precondition and holding at least one Prediction, it succeeds; for
every Prediction of the round, the resulting ScoreRecord store holds,
under that (user, round) key, a record whose total is the sum over
the prediction's entries of the scoring function applied to the match
found by match identity — an entry matching no match of the round
contributing 0 — and the round is stored with `processada = true`.
The Pairwise hypothesis is the data-model invariant of at most one
Prediction per (user, round). -/
theorem calcular_ranking_success_effect (db : DB) (rid k : Nat)
    (rodada : Rodada) (p : Palpite)
    (hfind : db.rodadas.find? (fun q => q.1 == rid) = some (k, rodada))
    (hfin : ∀ j ∈ rodada.jogos, j.finalizado = true)
    (hproc : rodada.processada = false)
    (hpw : (db.palpites.filter (fun q => q.rodada_id == rid)).Pairwise
        (fun a b => a.usuario_id ≠ b.usuario_id))
    (hp : p ∈ db.palpites) (hprid : p.rodada_id = rid) :
    (calcular_ranking db rid).2 = .success ∧
      (calcular_ranking db rid).1.ranking.find?
          (chave_ranking p.usuario_id rid) =
        some ⟨p.usuario_id, rid,
          (p.palpites.map (pontos_entrada rodada.jogos)).sum⟩ ∧
      (calcular_ranking db rid).1.rodadas.find? (fun q => q.1 == rid) =
        some (k, { rodada with processada := true }) := by
  have hany : rodada.jogos.any (fun j => !j.finalizado) = false := by
    rw [List.any_eq_false]
    intro j hj
    simp [hfin j hj]
  have hmem : p ∈ db.palpites.filter (fun q => q.rodada_id == rid) :=
    List.mem_filter.mpr ⟨hp, by simp [hprid]⟩
  have hne : (db.palpites.filter
      (fun q => q.rodada_id == rid)).isEmpty = false := by
    cases hE : (db.palpites.filter (fun q => q.rodada_id == rid)).isEmpty
    · rfl
    · rw [List.isEmpty_iff] at hE
      rw [hE] at hmem
      cases hmem
  unfold calcular_ranking
  rw [hfind]
  simp only [hany, Bool.false_eq_true, if_false, hproc, hne]
  refine ⟨by trivial, ?_, ?_⟩
  · rw [find?_fold_upsert rid
      (fun q => pontuar_palpite rodada.jogos q.palpites)
      (db.palpites.filter (fun q => q.rodada_id == rid)) hpw p hmem
      db.ranking]
    rw [pontuar_palpite_eq_sum rodada.jogos p.palpites]
  · exact find?_map_processada rid db.rodadas k rodada hfind

/-- Concrete finalized round for the C2 witness: match 7 ended 2×1. -/
def rodadaFinEx : Rodada :=
  { numero := 1
    data_limite_apostas := 100
    jogos := [⟨7, 1, 2, some 2, some 1, true⟩]
    processada := false }

/-- Database for the C2 witness: round `rodadaFinEx` under id 3, two
Predictions for it (user 5 guessed the exact 2×1, user 6 guessed
0×0), empty ranking. -/
def dbFinEx : DB :=
  { rodadas := [(3, rodadaFinEx)]
    palpites := [⟨5, 3, [⟨7, 2, 1⟩]⟩, ⟨6, 3, [⟨7, 0, 0⟩]⟩]
    ranking := [] }

/-- Witness for C2: scoring round 3 of `dbFinEx` succeeds, stores the
exact-match total for user 5 under (5, 3) and marks the round
processed. -/
theorem calcular_ranking_success_effect_witness :
    (calcular_ranking dbFinEx 3).2 = .success ∧
      (calcular_ranking dbFinEx 3).1.ranking.find? (chave_ranking 5 3) =
        some ⟨5, 3,
          (([⟨7, 2, 1⟩] : List PalpiteJogo).map
            (pontos_entrada rodadaFinEx.jogos)).sum⟩ ∧
      (calcular_ranking dbFinEx 3).1.rodadas.find? (fun q => q.1 == 3) =
        some (3, { rodadaFinEx with processada := true }) :=
  calcular_ranking_success_effect dbFinEx 3 3 rodadaFinEx ⟨5, 3, [⟨7, 2, 1⟩]⟩
    (by decide) (by decide) (by decide) (by decide) (by decide) (by decide)

/-! ### The leaderboard: the aggregation pipeline of `ranking` -/

/-- `$group {_id: usuario_id, pontuacao_total: {$sum: ...}}`: the
aggregate total of one user over all their ScoreRecords. -/
def total_usuario (records : List RankingRecord) (u : Nat) : Int :=
  ((records.filter (fun r => r.usuario_id == u)).map
    (fun r => r.pontuacao_total)).sum

/-- The distinct grouping keys (user ids) of a ScoreRecord list, each
exactly once, in first-appearance order (the document store does not
promise any particular group order, and neither does the spec). -/
def chaves_usuarios : List RankingRecord → List Nat
  | [] => []
  | r :: rest => r.usuario_id ::
      (chaves_usuarios rest).filter (fun u => u != r.usuario_id)

/-- `$sort {pontuacao_total: -1}`: descending order on the aggregated
total. -/
def ordem_pontuacao (a b : Nat × Int) : Prop := b.2 ≤ a.2

instance : DecidableRel ordem_pontuacao := fun a b =>
  inferInstanceAs (Decidable (b.2 ≤ a.2))

instance : IsTotal (Nat × Int) ordem_pontuacao :=
  ⟨fun a b => le_total b.2 a.2⟩

instance : IsTrans (Nat × Int) ordem_pontuacao :=
  ⟨fun _ _ _ h1 h2 => le_trans h2 h1⟩

/-- The aggregation pipeline of the `ranking` route: group the
ScoreRecords by user, sum `pontuacao_total` per user, sort descending
by the sum, `$limit 50`. Each output pair is (user id, total). -/
def ranking_geral (records : List RankingRecord) : List (Nat × Int) :=
  (List.insertionSort ordem_pontuacao
    ((chaves_usuarios records).map
      (fun u => (u, total_usuario records u)))).take 50

lemma chaves_usuarios_nodup : ∀ records : List RankingRecord,
    (chaves_usuarios records).Nodup := by
  intro records
  induction records with
  | nil => exact List.nodup_nil
  | cons r rest ih =>
    unfold chaves_usuarios
    refine List.nodup_cons.mpr ⟨?_, List.Nodup.filter _ ih⟩
    intro hmem
    have := (List.mem_filter.mp hmem).2
    simp at this

lemma mem_chaves_usuarios : ∀ (records : List RankingRecord),
    ∀ x ∈ records, x.usuario_id ∈ chaves_usuarios records := by
  intro records
  induction records with
  | nil => intro x hx; cases hx
  | cons r rest ih =>
    intro x hx
    unfold chaves_usuarios
    rcases List.mem_cons.mp hx with rfl | hx2
    · exact List.mem_cons_self _ _
    · by_cases hu : x.usuario_id = r.usuario_id
      · rw [hu]
        exact List.mem_cons_self _ _
      · exact List.mem_cons_of_mem _
          (List.mem_filter.mpr ⟨ih x hx2, by simp [hu]⟩)

/-- C7: the leaderboard reports at most 50 entries, in descending
order of total; each entry's total is the sum of `pontuacao_total`
over that user's ScoreRecords across all rounds; no user appears
twice; every user owning a ScoreRecord is a grouping key; and the
entries reported are the top ones — any grouped user left out of the
report has a total no greater than every reported entry. -/
theorem ranking_geral_spec (records : List RankingRecord) :
    (ranking_geral records).length ≤ 50 ∧
      (ranking_geral records).Pairwise ordem_pontuacao ∧
      (∀ e ∈ ranking_geral records, e.2 = total_usuario records e.1) ∧
      (ranking_geral records).Pairwise (fun a b => a.1 ≠ b.1) ∧
      (∀ x ∈ records, x.usuario_id ∈ chaves_usuarios records) ∧
      (∀ e ∈ ranking_geral records, ∀ u ∈ chaves_usuarios records,
        (u, total_usuario records u) ∉ ranking_geral records →
          total_usuario records u ≤ e.2) := by
  have hsort : (List.insertionSort ordem_pontuacao
      ((chaves_usuarios records).map
        (fun u => (u, total_usuario records u)))).Pairwise
      ordem_pontuacao :=
    List.sorted_insertionSort ordem_pontuacao _
  have hperm := List.perm_insertionSort ordem_pontuacao
    ((chaves_usuarios records).map
      (fun u => (u, total_usuario records u)))
  refine ⟨?_, ?_, ?_, ?_, mem_chaves_usuarios records, ?_⟩
  · rw [ranking_geral, List.length_take]
    exact min_le_left _ _
  · exact List.Pairwise.sublist (List.take_sublist _ _) hsort
  · intro e he
    have hmem : e ∈ (chaves_usuarios records).map
        (fun u => (u, total_usuario records u)) :=
      hperm.mem_iff.mp (List.take_subset _ _ he)
    obtain ⟨u, _, rfl⟩ := List.mem_map.mp hmem
    rfl
  · have hl : ((chaves_usuarios records).map
        (fun u => (u, total_usuario records u))).Pairwise
        (fun a b => a.1 ≠ b.1) := by
      rw [List.pairwise_map]
      exact chaves_usuarios_nodup records
    have hs := (hperm.pairwise_iff
      (fun {a b} (h : a.1 ≠ b.1) => h.symm)).mpr hl
    exact List.Pairwise.sublist (List.take_sublist _ _) hs
  · intro e he u hu hnot
    have hpair : (u, total_usuario records u) ∈
        List.insertionSort ordem_pontuacao
          ((chaves_usuarios records).map
            (fun u => (u, total_usuario records u))) :=
      hperm.mem_iff.mpr (List.mem_map_of_mem _ hu)
    rw [← List.take_append_drop 50 (List.insertionSort ordem_pontuacao
      ((chaves_usuarios records).map
        (fun u => (u, total_usuario records u))))] at hsort
    have hsplit := List.pairwise_append.mp hsort
    rcases List.mem_append.mp (by
        rwa [← List.take_append_drop 50 (List.insertionSort ordem_pontuacao
          ((chaves_usuarios records).map
            (fun u => (u, total_usuario records u))))] at hpair) with
      hin | hin
    · exact absurd hin hnot
    · exact hsplit.2.2 e he (u, total_usuario records u) hin

/-- ScoreRecords for the C7 witness: user 1 earned 5, 10 and 0 over
three rounds (the spec's example, total 15); user 2 earned 7. -/
def recsEx : List RankingRecord :=
  [⟨1, 1, 5⟩, ⟨1, 2, 10⟩, ⟨1, 3, 0⟩, ⟨2, 1, 7⟩]

/-- Witness for C7: (1, 15) is a reported leaderboard entry of
`recsEx` and its total is user 1's sum 5 + 10 + 0 = 15; the report
has at most 50 entries. -/
theorem ranking_geral_spec_witness :
    ((1, (15 : Int)) ∈ ranking_geral recsEx ∧
        ((1, (15 : Int)).2 = total_usuario recsEx (1, (15 : Int)).1)) ∧
      (ranking_geral recsEx).length ≤ 50 :=
  ⟨⟨by decide, (ranking_geral_spec recsEx).2.2.1 (1, 15) (by decide)⟩,
    (ranking_geral_spec recsEx).1⟩
